import Mathlib

/-! Shallow embedding of the Hive move-generation engine (src/lib.rs) and
verification of the frozen specification claims.

Modelling conventions:
* `isize` is modelled as `Int` (all values involved are tiny, far from overflow).
* `HashMap<Point, Piece>` is modelled as a key-unique association list that
  keeps a fixed iteration order; map equality is order-independent and is
  modelled by comparing key-sorted entry lists, matching the derived
  `PartialEq` of `HashMap` and the sorted `Ord`/`Hash` of `Board`.
* Operations whose Rust source can panic (`Option::unwrap`, `Vec::remove`,
  indexing) are embedded in the `Option` monad: `none` models the panic.
* The two unbounded loops (`canonicalize`, the grasshopper ray walk and the
  BFS of `component_size`) are given explicit fuel that provably (or by
  direct bound) suffices; the ant search, which no claim touches, gets a
  fixed fuel constant.
-/

namespace Hive

/-- The three-axis coordinate of a hex cell (`Point` in the source),
with `x y z : isize` modelled as `Int`. -/
structure Point where
  x : Int
  y : Int
  z : Int
deriving DecidableEq, Repr

/-- One iteration of the body of the normalization loop in
`Point::canonicalize`: `y -= 1; z += 1; x += 1`. -/
def canonStep (p : Point) : Point := ⟨p.x + 1, p.y - 1, p.z + 1⟩

/-- The guard of the normalization loop: it runs `while new.y > 0 && new.z < 0`. -/
def canonGuard (p : Point) : Bool := decide (p.y > 0) && decide (p.z < 0)

/-- Fuel-indexed unfolding of the `while` loop of `Point::canonicalize`. -/
def canonFuel : Nat → Point → Point
  | 0, p => p
  | n + 1, p => if canonGuard p then canonFuel n (canonStep p) else p

/-- `Point::canonicalize`.  Each loop iteration strictly decreases `y`
and the guard needs `y > 0`, so `p.y.toNat` iterations always suffice
(`canonFuel_stable` below proves the fuel is irrelevant beyond that). -/
def Point.canonicalize (p : Point) : Point := canonFuel p.y.toNat p

/-- `Point::new`: builds the raw triple and canonicalizes it. -/
def Point.new (x y z : Int) : Point := Point.canonicalize ⟨x, y, z⟩

/-- `p[axis] += dir` on a `Point`; the source indexes axes 0, 1, 2 and
panics otherwise, and every caller only produces 0, 1, 2. -/
def Point.axisAdd (p : Point) (axis : Nat) (dir : Int) : Point :=
  match axis with
  | 0 => ⟨p.x + dir, p.y, p.z⟩
  | 1 => ⟨p.x, p.y + dir, p.z⟩
  | _ => ⟨p.x, p.y, p.z + dir⟩

/-- The `(dir, axis)` pairs `vec![-1, 1].cartesian_product(0..3)`, in
iterator order. -/
def directions : List (Int × Nat) :=
  ([-1, 1] : List Int).flatMap fun dir => ([0, 1, 2] : List Nat).map fun axis => (dir, axis)

/-- `Point::neighbors`: the six single-axis offsets, each canonicalized. -/
def Point.neighbors (p : Point) : List Point :=
  directions.map fun d => (p.axisAdd d.2 d.1).canonicalize

/-- `Player`. -/
inductive Player where
  | P1
  | P2
deriving DecidableEq, Repr

/-- `impl Not for Player`. -/
def Player.not : Player → Player
  | .P1 => .P2
  | .P2 => .P1

/-- `Piece`; the beetle's `Option<Box<Piece>>` becomes `Option Piece`. -/
inductive Piece where
  | Queen (player : Player)
  | Beetle (player : Player) (under : Option Piece)
  | Ant (player : Player)
  | Grasshopper (player : Player)
  | Spider (player : Player)

/-- Structural equality of pieces (the derived `PartialEq` of the source);
written by hand because of the nested `Option Piece`. -/
def Piece.beq : Piece → Piece → Bool
  | .Queen a, .Queen b => a == b
  | .Beetle a none, .Beetle b none => a == b
  | .Beetle a (some u), .Beetle b (some v) => a == b && Piece.beq u v
  | .Ant a, .Ant b => a == b
  | .Grasshopper a, .Grasshopper b => a == b
  | .Spider a, .Spider b => a == b
  | _, _ => false

theorem Piece.beq_refl : (a : Piece) → Piece.beq a a = true
  | .Queen _ => by simp [Piece.beq]
  | .Beetle _ none => by simp [Piece.beq]
  | .Beetle _ (some u) => by
      simp only [Piece.beq, Bool.and_eq_true, beq_self_eq_true, true_and]
      exact Piece.beq_refl u
  | .Ant _ => by simp [Piece.beq]
  | .Grasshopper _ => by simp [Piece.beq]
  | .Spider _ => by simp [Piece.beq]

theorem Piece.eq_of_beq : (a b : Piece) → Piece.beq a b = true → a = b
  | .Queen _, .Queen _ => by simp [Piece.beq]
  | .Beetle _ u, .Beetle _ v => by
      match u, v with
      | none, none => simp [Piece.beq]
      | some a, some b =>
        simp only [Piece.beq, Bool.and_eq_true, beq_iff_eq]
        intro h
        have := Piece.eq_of_beq a b h.2
        simp [h.1, this]
      | none, some _ => simp [Piece.beq]
      | some _, none => simp [Piece.beq]
  | .Ant _, .Ant _ => by simp [Piece.beq]
  | .Grasshopper _, .Grasshopper _ => by simp [Piece.beq]
  | .Spider _, .Spider _ => by simp [Piece.beq]
  | .Queen _, .Beetle _ _ => by simp [Piece.beq]
  | .Queen _, .Ant _ => by simp [Piece.beq]
  | .Queen _, .Grasshopper _ => by simp [Piece.beq]
  | .Queen _, .Spider _ => by simp [Piece.beq]
  | .Beetle _ _, .Queen _ => by simp [Piece.beq]
  | .Beetle _ _, .Ant _ => by simp [Piece.beq]
  | .Beetle _ _, .Grasshopper _ => by simp [Piece.beq]
  | .Beetle _ _, .Spider _ => by simp [Piece.beq]
  | .Ant _, .Queen _ => by simp [Piece.beq]
  | .Ant _, .Beetle _ _ => by simp [Piece.beq]
  | .Ant _, .Grasshopper _ => by simp [Piece.beq]
  | .Ant _, .Spider _ => by simp [Piece.beq]
  | .Grasshopper _, .Queen _ => by simp [Piece.beq]
  | .Grasshopper _, .Beetle _ _ => by simp [Piece.beq]
  | .Grasshopper _, .Ant _ => by simp [Piece.beq]
  | .Grasshopper _, .Spider _ => by simp [Piece.beq]
  | .Spider _, .Queen _ => by simp [Piece.beq]
  | .Spider _, .Beetle _ _ => by simp [Piece.beq]
  | .Spider _, .Ant _ => by simp [Piece.beq]
  | .Spider _, .Grasshopper _ => by simp [Piece.beq]

instance : DecidableEq Piece := fun a b =>
  if h : Piece.beq a b = true then isTrue (Piece.eq_of_beq a b h)
  else isFalse fun he => h (he ▸ Piece.beq_refl a)

/-- `Piece::player`. -/
def Piece.player : Piece → Player
  | .Queen pl => pl
  | .Beetle pl _ => pl
  | .Ant pl => pl
  | .Grasshopper pl => pl
  | .Spider pl => pl

/-- The board: `HashMap<Point, Piece>` as a key-unique association list. -/
abbrev Board := List (Point × Piece)

/-- `HashMap::get`. -/
def Board.get (b : Board) (p : Point) : Option Piece :=
  (b.find? fun e => e.1 == p).map (·.2)

/-- `HashMap::contains_key`. -/
def Board.containsKey (b : Board) (p : Point) : Bool :=
  (Board.get b p).isSome

/-- `HashMap::insert`: overwrites the value at an existing key, otherwise
adds the entry. -/
def Board.insert (b : Board) (p : Point) (pc : Piece) : Board :=
  if Board.containsKey b p then b.map fun e => if e.1 == p then (p, pc) else e
  else b ++ [(p, pc)]

/-- `HashMap::remove`, returning the removed value (if any) and the
remaining board. -/
def Board.removeKey (b : Board) (p : Point) : Option Piece × Board :=
  (Board.get b p, b.filter fun e => !(e.1 == p))

/-- First-occurrence deduplication, as `Itertools::unique`. -/
def uniquePoints (seen : List Point) : List Point → List Point
  | [] => []
  | p :: rest =>
    if seen.contains p then uniquePoints seen rest
    else p :: uniquePoints (p :: seen) rest

/-- `circular_tuple_windows` over the 6 flagged neighbors: all cyclically
adjacent pairs, wrapping around. -/
def circularWindows (l : List (Point × Bool)) : List ((Point × Bool) × (Point × Bool)) :=
  match l with
  | [] => []
  | a :: rest => (a :: rest).zip (rest ++ [a])

/-- `Point::movable_neighbors`: neighbors paired with emptiness, cyclic
windows, keep both members of every (empty, empty) pair, dedup. -/
def Point.movable_neighbors (p : Point) (b : Board) : List Point :=
  let flagged := p.neighbors.map fun q => (q, (Board.get b q).isNone)
  uniquePoints []
    (((circularWindows flagged).filter fun w => w.1.2 && w.2.2).flatMap fun w => [w.1.1, w.2.1])

/-- The initial bag of one player: 1 queen, 2 beetles, 3 ants,
3 grasshoppers, 2 spiders, in the order `Pieces::new` builds it. -/
def startingPieces (pl : Player) : List Piece :=
  [Piece.Queen pl,
   Piece.Beetle pl none, Piece.Beetle pl none,
   Piece.Ant pl, Piece.Ant pl, Piece.Ant pl,
   Piece.Grasshopper pl, Piece.Grasshopper pl, Piece.Grasshopper pl,
   Piece.Spider pl, Piece.Spider pl]

/-- `Pieces`. -/
structure Pieces where
  p1 : List Piece
  p2 : List Piece
deriving DecidableEq

/-- `Pieces::new`. -/
def Pieces.new : Pieces := ⟨startingPieces .P1, startingPieces .P2⟩

/-- `Pieces::remove`: `Vec::remove(idx)` is a shift-remove and panics when
the index is out of bounds, modelled by `none`. -/
def Pieces.removeIdx (ps : Pieces) (pl : Player) (idx : Nat) : Option (Piece × Pieces) :=
  match pl with
  | .P1 => (ps.p1.get? idx).map fun pc => (pc, ⟨ps.p1.eraseIdx idx, ps.p2⟩)
  | .P2 => (ps.p2.get? idx).map fun pc => (pc, ⟨ps.p1, ps.p2.eraseIdx idx⟩)

/-- `State`. -/
structure State where
  turn : Nat
  active : Player
  p1_queen : Option Point
  p2_queen : Option Point
  unplaced : Pieces
  board : Board
deriving DecidableEq

/-- Key order used to sort board entries (derived lexicographic `Ord` on
`Point`); keys are unique, so sorting by key determines the entry list. -/
def Point.keyLe (p q : Point) : Bool :=
  decide (p.x < q.x) ||
    (p.x == q.x && (decide (p.y < q.y) || (p.y == q.y && decide (p.z ≤ q.z))))

/-- Insertion into a key-sorted entry list. -/
def insertSorted (e : Point × Piece) : List (Point × Piece) → List (Point × Piece)
  | [] => [e]
  | f :: rest => if Point.keyLe e.1 f.1 then e :: f :: rest else f :: insertSorted e rest

/-- Key-sorted entries of a board; two `HashMap`s are equal exactly when
these lists are equal (keys unique). -/
def Board.sortedEntries (b : Board) : List (Point × Piece) :=
  b.foldr insertSorted []

/-- Order-independent board equality, as the derived `PartialEq` of
`HashMap` (and the sorted `Ord`/`Hash` of `Board`). -/
def Board.eqv (b1 b2 : Board) : Bool :=
  Board.sortedEntries b1 == Board.sortedEntries b2

/-- Structural `State` equality with order-independent board comparison:
what `HashSet<State>` dedups by. -/
def State.eqv (s t : State) : Bool :=
  s.turn == t.turn && s.active == t.active && s.p1_queen == t.p1_queen &&
    s.p2_queen == t.p2_queen && s.unplaced == t.unplaced && Board.eqv s.board t.board

/-- `State::next_turn`. -/
def State.next_turn (s : State) (queen : Option Point) (unplaced : Option Pieces)
    (board : Board) : State :=
  ⟨if s.active == .P2 then s.turn + 1 else s.turn,
   s.active.not,
   if s.active == .P1 && queen.isSome then queen else s.p1_queen,
   if s.active == .P2 && queen.isSome then queen else s.p2_queen,
   unplaced.getD s.unplaced,
   board⟩

/-- `State::placeable_points`: the occupied cells whose piece belongs to the
active player and all of whose neighbors are empty or friendly. -/
def State.placeable_points (s : State) : List Point :=
  (((s.board.filter fun e => e.2.player == s.active).filter fun e =>
      e.1.neighbors.all fun p =>
        match Board.get s.board p with
        | none => true
        | some pc => pc.player == s.active)).map (·.1)

/-- One BFS expansion of `component_size`: enqueue the not-yet-visited
occupied neighbors, in neighbor order.  Returns (new queue entries, visited). -/
def bfsRound (board : Board) (point : Point) (visited : List Point) :
    List Point × List Point :=
  point.neighbors.foldl
    (fun acc p =>
      if Board.containsKey board p && !(acc.2.contains p) then (acc.1 ++ [p], acc.2 ++ [p])
      else acc)
    ([], visited)

/-- The BFS loop of `component_size`.  Every queue entry was inserted into
`visited` exactly once and only board keys (plus the start) are inserted,
so `board.length + 1` pops always drain the queue. -/
def bfsGo (board : Board) : Nat → List Point → List Point → List Point
  | 0, _, visited => visited
  | _ + 1, [], visited => visited
  | fuel + 1, point :: rest, visited =>
    let r := bfsRound board point visited
    bfsGo board fuel (rest ++ r.1) r.2

/-- `State::component_size`. -/
def State.component_size (s : State) (start : Option Point) : Nat :=
  match start with
  | none => 0
  | some point => (bfsGo s.board (s.board.length + 1) [point] [point]).length

/-- The queen-placement part of `State::validate`, mirroring the `match` on
`(turn, active, p1_queen, p2_queen)`. -/
def queenMatch (turn : Nat) (active : Player) (p1q p2q : Option Point) : Bool :=
  if 5 ≤ turn then p1q.isSome && p2q.isSome
  else if turn == 4 && active == Player.P2 && p1q.isNone then false
  else true

/-- `State::validate`:  connectivity from the first stored key, and the
queen-by-turn rule. -/
def State.validate (s : State) : Bool :=
  (s.component_size ((s.board.head?).map (·.1)) == s.board.length) &&
    queenMatch s.turn s.active s.p1_queen s.p2_queen

/-- The queen arm of `get_moves`: one gated slide; `b.remove(point).unwrap()`
is the `←` bind on the removed occupant. -/
def queenArm (s : State) (point : Point) : Option (List (Board × Option Point)) :=
  (point.movable_neighbors s.board).mapM fun p => do
    let r := Board.removeKey s.board point
    let piece ← r.1
    pure (Board.insert r.2 p piece, some p)

/-- The beetle arm of `get_moves`: all six raw neighbors; the removed origin
occupant (the beetle itself) becomes the carried value of the inserted
beetle, and the old carried piece is redeposited at the origin. -/
def beetleArm (s : State) (point : Point) (player : Player) (under : Option Piece) :
    List (Board × Option Point) :=
  point.neighbors.map fun p =>
    let r := Board.removeKey s.board point
    let b1 := Board.insert r.2 p (Piece.Beetle player r.1)
    let b2 := match under with
      | some u => Board.insert b1 point u
      | none => b1
    (b2, none)

/-- The ant filter: keep candidates that touch the original hive and are
newly inserted into the (threaded) visited set.  Returns (kept, visited). -/
def antFilter (orig : Board) (cands : List Point) (visited : List Point) :
    List Point × List Point :=
  cands.foldl
    (fun acc nb =>
      if (nb.neighbors.any fun p => (Board.get orig p).isSome) && !(acc.2.contains nb)
      then (acc.1 ++ [nb], nb :: acc.2)
      else acc)
    ([], visited)

/-- `ant_moves`.  The Rust recursion is bounded only by the growth of the
shared visited set; the fuel argument stands in for that bound (no claim
exercises the ant search).  Returns (boards, visited); `none` models a panic
or fuel exhaustion. -/
def ant_moves (orig : Board) : Nat → Point → Board → List Point →
    Option (List Board × List Point)
  | 0, _, _, _ => none
  | fuel + 1, point, hyp, visited =>
    let f := antFilter orig (point.movable_neighbors hyp) visited
    f.1.foldlM
      (fun acc p => do
        let r := Board.removeKey hyp point
        let e ← r.1
        let b := Board.insert r.2 p e
        let rr ← ant_moves orig fuel p b acc.2
        pure (acc.1 ++ rr.1 ++ [b], rr.2))
      ([], f.2)

/-- Fuel constant for the ant search. -/
def antFuel : Nat := 32

/-- The short-circuiting `any` of the spider filter: scan the neighbor list
and insert the first occupied, not-yet-visited point into the visited set.
Returns (found, visited). -/
def anyInsertOcc (board : Board) : List Point → List Point → Bool × List Point
  | [], visited => (false, visited)
  | p :: rest, visited =>
    if (Board.get board p).isSome && !(visited.contains p) then (true, p :: visited)
    else anyInsertOcc board rest visited

/-- The spider filter over slide candidates, threading the visited set
exactly as the Rust `filter` with its effectful `any` does. -/
def spiderFilter (board : Board) (cands : List Point) (visited : List Point) :
    List Point × List Point :=
  cands.foldl
    (fun acc p =>
      let r := anyInsertOcc board p.neighbors acc.2
      if r.1 then (acc.1 ++ [p], r.2) else (acc.1, r.2))
    ([], visited)

/-- `spider_moves`.  When `moves_remaining = 0` it returns no boards; at a
positive depth it filters the gated slides, then for each kept candidate
removes the occupant of `point` (`unwrap`: `none` models the panic when
`point` is empty), moves it, recurses from every gated slide of the new
cell, and chains the one-slide board itself.  The visited set is threaded
through the whole search. -/
def spider_moves : Nat → Point → Board → List Point → Option (List Board × List Point)
  | 0, _, _, visited => some ([], visited)
  | k + 1, point, board, visited =>
    let f := spiderFilter board (point.movable_neighbors board) visited
    f.1.foldlM
      (fun acc p => do
        let r := Board.removeKey board point
        let e ← r.1
        let b := Board.insert r.2 p e
        let inner ← (p.movable_neighbors b).foldlM
          (fun acc2 nb => do
            let rr ← spider_moves k nb b acc2.2
            pure (acc2.1 ++ rr.1, rr.2))
          (([] : List Board), acc.2)
        pure (acc.1 ++ inner.1 ++ [b], inner.2))
      (([] : List Board), f.2)

/-- The spider arm of `get_moves`: `spider_moves(point, board, {}, 3)`. -/
def spiderArm (s : State) (point : Point) : Option (List (Board × Option Point)) := do
  let r ← spider_moves 3 point s.board []
  pure (r.1.map fun b => (b, none))

/-- The grasshopper ray walk: step while the stepped-to cell is occupied
(the raw triple is NOT canonicalized, as in the source).  Fuel
`board.length + 1` always suffices: the walk stops at the first cell that
is not a key, and the visited raw triples are pairwise distinct. -/
def ghWalk (board : Board) (axis : Nat) (dir : Int) : Nat → Point → Option Point
  | 0, _ => none
  | fuel + 1, p =>
    if Board.containsKey board p then ghWalk board axis dir fuel (p.axisAdd axis dir)
    else some p

/-- The grasshopper arm of `get_moves`: one ray walk per direction. -/
def grasshopperArm (s : State) (point : Point) : Option (List (Board × Option Point)) :=
  directions.mapM fun d => do
    let dest ← ghWalk s.board d.2 d.1 (s.board.length + 1) point
    let r := Board.removeKey s.board point
    let piece ← r.1
    pure (Board.insert r.2 dest piece, none)

/-- The ant arm of `get_moves`. -/
def antArm (s : State) (point : Point) : Option (List (Board × Option Point)) := do
  let r ← ant_moves s.board antFuel point s.board []
  pure (r.1.map fun b => (b, none))

/-- Movement candidates of one piece of the active player. -/
def pieceMoves (s : State) (point : Point) (piece : Piece) :
    Option (List (Board × Option Point)) :=
  match piece with
  | .Queen _ => queenArm s point
  | .Beetle player under => some (beetleArm s point player under)
  | .Ant _ => antArm s point
  | .Grasshopper _ => grasshopperArm s point
  | .Spider _ => spiderArm s point

/-- The placement cells: fixed bootstrap cells while at most one cell is
occupied, otherwise `placeable_points`. -/
def placementPoints (s : State) : List Point :=
  match s.board.length, s.active with
  | 0, .P1 => [Point.new 0 0 0]
  | 1, .P1 => [Point.new 0 0 0]
  | 0, .P2 => [Point.new 0 0 1]
  | 1, .P2 => [Point.new 0 0 1]
  | _, _ => s.placeable_points

/-- Is this piece a queen (the `if let Piece::Queen(_)` test)? -/
def isQueen : Piece → Bool
  | .Queen _ => true
  | _ => false

/-- The placement candidates of `get_moves`:
`(0..unplaced.len()).cartesian_product(points)`, inserting the removed
piece and recording the queen location when a queen is placed. -/
def placements (s : State) : Option (List State) :=
  let bag := match s.active with
    | .P1 => s.unplaced.p1
    | .P2 => s.unplaced.p2
  ((List.range bag.length).flatMap fun idx =>
      (placementPoints s).map fun pt => (idx, pt)).mapM fun c => do
    let r ← Pieces.removeIdx s.unplaced s.active c.1
    let b := Board.insert s.board c.2 r.1
    let placed ← Board.get b c.2
    pure (s.next_turn (if isQueen placed then some c.2 else none) (some r.2) b)

/-- Deduplication of the candidate set by `State` equality (the
`HashSet<State>`), keeping first occurrences. -/
def dedupStates (seen : List State) : List State → List State
  | [] => []
  | s :: rest =>
    if seen.any fun t => State.eqv t s then dedupStates seen rest
    else s :: dedupStates (s :: seen) rest

/-- `State::get_moves`: placements, then per-piece movement candidates of
the active player, wrapped through `next_turn`, deduplicated and filtered
by `validate`.  `none` models a panic inside any arm. -/
def State.get_moves (s : State) : Option (List State) := do
  let pl ← placements s
  let movers := s.board.filter fun e => e.2.player == s.active
  let mvs ← movers.mapM fun e => do
    let ms ← pieceMoves s e.1 e.2
    pure (ms.map fun bq => s.next_turn bq.2 none bq.1)
  pure ((dedupStates [] (pl ++ mvs.flatten)).filter State.validate)

/-- `State::default`. -/
def stateDefault : State := ⟨0, .P1, none, none, Pieces.new, []⟩

/-! Facts about the canonicalization loop (claims C3, C10). -/

theorem canonFuel_fixed (n : Nat) (p : Point) (h : canonGuard p = false) :
    canonFuel n p = p := by
  cases n <;> simp [canonFuel, h]

theorem canonGuard_eq_false (p : Point) (h : p.y ≤ 0) : canonGuard p = false := by
  simp only [canonGuard, Bool.and_eq_false_imp, decide_eq_true_eq, decide_eq_false_iff_not]
  omega

theorem canonGuard_y_pos (p : Point) (h : canonGuard p = true) : 0 < p.y ∧ p.z < 0 := by
  simp only [canonGuard, Bool.and_eq_true, decide_eq_true_eq] at h
  exact h

/-- After `p.y.toNat` unfoldings the loop guard has failed: the loop always
reaches a fixed point because each iteration strictly decreases `y` and the
guard requires `y > 0`. -/
theorem canonGuard_canonFuel (k : Nat) :
    ∀ p : Point, p.y.toNat ≤ k → canonGuard (canonFuel k p) = false := by
  induction k with
  | zero =>
    intro p hp
    have : canonGuard p = false := canonGuard_eq_false p (by omega)
    simpa [canonFuel] using this
  | succ k ih =>
    intro p hp
    cases hg : canonGuard p with
    | false => rw [canonFuel_fixed (k + 1) p hg]; exact hg
    | true =>
      have hy := canonGuard_y_pos p hg
      simp only [canonFuel, hg, if_true]
      exact ih (canonStep p) (by simp only [canonStep]; omega)

/-- Any fuel at least `p.y.toNat` computes the same result: the loop
terminates within `p.y.toNat` iterations. -/
theorem canonFuel_stable (k : Nat) :
    ∀ (j : Nat) (p : Point), p.y.toNat ≤ k → k ≤ j → canonFuel j p = canonFuel k p := by
  induction k with
  | zero =>
    intro j p hp _
    have hg : canonGuard p = false := canonGuard_eq_false p (by omega)
    rw [canonFuel_fixed j p hg, canonFuel_fixed 0 p hg]
  | succ k ih =>
    intro j p hp hj
    cases hg : canonGuard p with
    | false => rw [canonFuel_fixed j p hg, canonFuel_fixed (k + 1) p hg]
    | true =>
      have hy := canonGuard_y_pos p hg
      obtain ⟨j, rfl⟩ : ∃ m, j = m + 1 := ⟨j - 1, by omega⟩
      simp only [canonFuel, hg, if_true]
      exact ih j (canonStep p) (by simp only [canonStep]; omega) (by omega)

/-- C10: `canonicalize` terminates on every input triple.  Formally: the
loop, unfolded with any fuel beyond the `p.y.toNat` iterations it can at
most perform, returns the same point (the `while` loop exits after at most
`p.y.toNat` iterations since each one strictly decreases `y`); the result
is a fixed point (the guard fails on it and canonicalizing again changes
nothing), so `canonicalize` — and with it `Point::new` and `neighbors` —
is a total function on all integer triples. -/
theorem c10_canonicalize_terminates (p : Point) (n : Nat) :
    canonFuel (p.y.toNat + n) p = Point.canonicalize p ∧
    canonGuard (Point.canonicalize p) = false ∧
    Point.canonicalize (Point.canonicalize p) = Point.canonicalize p := by
  have hfix := canonGuard_canonFuel p.y.toNat p le_rfl
  refine ⟨canonFuel_stable p.y.toNat (p.y.toNat + n) p le_rfl (by omega), hfix, ?_⟩
  exact canonFuel_fixed _ _ hfix

/-- C3 is false on the code: `(0,0,0)` and the coordinate obtained from it
by one application of the transform `(a+1, b−1, c+1)` — which the
specification declares to be an equivalent encoding of the same physical
cell — are BOTH fixed points of `canonicalize`, so the same hex cell gets
two distinct map keys.  (The loop guard `y > 0 && z < 0` fails on both, so
the loop never merges them.) -/
def claimTransform (p : Point) : Point := ⟨p.x + 1, p.y - 1, p.z + 1⟩

/-- C3 (refuted): `canonicalize (claimTransform p) = canonicalize p` fails
at `p = (0,0,0)`: both the point and its transform canonicalize to
themselves, yielding two distinct keys for one cell. -/
theorem c3_canonicalize_not_cell_unique :
    Point.canonicalize (claimTransform ⟨0, 0, 0⟩) ≠ Point.canonicalize ⟨0, 0, 0⟩ ∧
    claimTransform ⟨0, 0, 0⟩ = ⟨1, -1, 1⟩ ∧
    Point.canonicalize ⟨0, 0, 0⟩ = ⟨0, 0, 0⟩ ∧
    Point.canonicalize ⟨1, -1, 1⟩ = ⟨1, -1, 1⟩ := by decide

/-- C8 (refuted): neighbor symmetry fails.  `(1,0,0)` is a neighbor of
`(0,1,0)` (the raw offset `(0,1,-1)` canonicalizes to `(1,0,0)`), but
`(0,1,0)` is not among the six (canonicalized) neighbors of `(1,0,0)` —
that list contains the other representative `(1,0,1)` of the same physical
cell instead. -/
theorem c8_neighbor_symmetry_fails :
    (⟨1, 0, 0⟩ : Point) ∈ Point.neighbors ⟨0, 1, 0⟩ ∧
    (⟨0, 1, 0⟩ : Point) ∉ Point.neighbors ⟨1, 0, 0⟩ := by decide

/-! Claim C7: characterization of the validation rule. -/

/-- The queen-by-turn rule exactly as the specification claim words it:
from turn 5 onward both players have a placed queen, and it is not the
case that the turn is 4 with player 2 active and player 1's queen
unplaced; turns 0–3 impose no constraint. -/
def specQueenRule (s : State) : Prop :=
  (5 ≤ s.turn → s.p1_queen.isSome = true ∧ s.p2_queen.isSome = true) ∧
  ¬(s.turn = 4 ∧ s.active = Player.P2 ∧ s.p1_queen = none)

theorem queenMatch_iff (turn : Nat) (active : Player) (p1q p2q : Option Point) :
    queenMatch turn active p1q p2q = true ↔
      ((5 ≤ turn → p1q.isSome = true ∧ p2q.isSome = true) ∧
        ¬(turn = 4 ∧ active = Player.P2 ∧ p1q = none)) := by
  unfold queenMatch
  split_ifs with h5 h4
  · simp only [Bool.and_eq_true]
    constructor
    · intro h
      exact ⟨fun _ => h, fun hc => absurd hc.1 (by omega)⟩
    · intro h
      exact h.1 h5
  · simp only [Bool.and_eq_true, beq_iff_eq, Option.isNone_iff_eq_none] at h4
    constructor
    · intro h
      simp at h
    · intro h
      exact absurd ⟨h4.1.1, h4.1.2, h4.2⟩ h.2
  · simp only [Bool.and_eq_true, beq_iff_eq, Option.isNone_iff_eq_none, not_and] at h4
    constructor
    · intro _
      exact ⟨fun h => absurd h h5, fun hc => h4 ⟨hc.1, hc.2.1⟩ hc.2.2⟩
    · intro _
      rfl

/-- C7 (confirmed): `validate` returns `true` exactly when the BFS
component size from the first stored occupied cell equals the number of
occupied cells (an empty board passes: both sides are 0) AND the
queen-by-turn rule of the claim holds. -/
theorem c7_validate_characterization (s : State) :
    State.validate s = true ↔
      (s.component_size ((s.board.head?).map (·.1)) = s.board.length ∧ specQueenRule s) := by
  unfold State.validate specQueenRule
  rw [Bool.and_eq_true, beq_iff_eq, queenMatch_iff]

/-! Concrete game states used as failing inputs. -/

/-- The state after the game's first ply, player 1 having placed a spider
at the fixed origin. -/
def spiderPlaced : State :=
  ⟨0, .P2, none, none, ⟨(startingPieces .P1).eraseIdx 9, startingPieces .P2⟩,
   [(⟨0, 0, 0⟩, Piece.Spider .P1)]⟩

/-- The state after two plies: player 1's spider at the origin, player 2's
queen at the fixed second cell `(0,0,1)`.  Reachable from the default
state (proved inside `c2_spider_search_panics`). -/
def stateS2 : State :=
  ⟨1, .P1, none, some ⟨0, 0, 1⟩,
   ⟨(startingPieces .P1).eraseIdx 9, (startingPieces .P2).eraseIdx 0⟩,
   [(⟨0, 0, 0⟩, Piece.Spider .P1), (⟨0, 0, 1⟩, Piece.Queen .P2)]⟩

/-- A turn-2 state with four placed pieces in a line: player 1's queen and
grasshopper, player 2's queen and ant.  Player 1 to move. -/
def stateS1 : State :=
  ⟨2, .P1, some ⟨0, 0, 0⟩, some ⟨0, 0, 2⟩,
   ⟨((startingPieces .P1).eraseIdx 0).eraseIdx 5,
    ((startingPieces .P2).eraseIdx 0).eraseIdx 2⟩,
   [(⟨0, 0, 0⟩, Piece.Queen .P1), (⟨0, 0, 1⟩, Piece.Grasshopper .P1),
    (⟨0, 0, 2⟩, Piece.Queen .P2), (⟨0, 0, 3⟩, Piece.Ant .P2)]⟩

/-- The state after two plies: player 1's beetle at the origin, player 2's
queen at the fixed second cell.  Player 1 to move. -/
def stateS4 : State :=
  ⟨1, .P1, none, some ⟨0, 0, 1⟩,
   ⟨(startingPieces .P1).eraseIdx 1, (startingPieces .P2).eraseIdx 0⟩,
   [(⟨0, 0, 0⟩, Piece.Beetle .P1 none), (⟨0, 0, 1⟩, Piece.Queen .P2)]⟩

/-- A turn-2 state: player 1's spider at the origin and queen at
`(-1,0,2)`, player 2's queen at `(-1,0,0)` and ant at `(-1,0,1)`.
Player 1 to move. -/
def stateS5 : State :=
  ⟨2, .P1, some ⟨-1, 0, 2⟩, some ⟨-1, 0, 0⟩,
   ⟨((startingPieces .P1).eraseIdx 0).eraseIdx 8,
    ((startingPieces .P2).eraseIdx 0).eraseIdx 2⟩,
   [(⟨0, 0, 0⟩, Piece.Spider .P1), (⟨-1, 0, 2⟩, Piece.Queen .P1),
    (⟨-1, 0, 0⟩, Piece.Queen .P2), (⟨-1, 0, 1⟩, Piece.Ant .P2)]⟩

/-- A turn-2 state: player 1's grasshopper at the origin and queen at
`(0,0,2)`, player 2's queen at `(0,0,1)` and ant at `(0,1,1)`.
Player 1 to move; the grasshopper's `+y` neighbor `(0,1,0)` is empty. -/
def stateS6 : State :=
  ⟨2, .P1, some ⟨0, 0, 2⟩, some ⟨0, 0, 1⟩,
   ⟨((startingPieces .P1).eraseIdx 0).eraseIdx 5,
    ((startingPieces .P2).eraseIdx 0).eraseIdx 2⟩,
   [(⟨0, 0, 0⟩, Piece.Grasshopper .P1), (⟨0, 0, 2⟩, Piece.Queen .P1),
    (⟨0, 0, 1⟩, Piece.Queen .P2), (⟨0, 1, 1⟩, Piece.Ant .P2)]⟩

/-- C2 (refuted): `get_moves` panics on a well-formed, reachable state.
`stateS2` — spider placed by player 1, queen placed by player 2, the
game's third ply — is reached from the default state in two plies (the
first two conjuncts), and on it the spider search calls
`board.remove(&point).unwrap()` at a cell that holds no piece (the
recursion descends from an empty slide-neighbor cell), modelled by
`get_moves = none`. -/
theorem c2_spider_search_panics :
    (((State.get_moves stateDefault).getD []).any fun t => State.eqv t spiderPlaced) = true ∧
    (((State.get_moves spiderPlaced).getD []).any fun t => State.eqv t stateS2) = true ∧
    State.get_moves stateS2 = none := by decide

/-- C4 (refuted): when the beetle at the origin of `stateS4` moves onto the
opposing queen at `(0,0,1)`, the destination afterwards holds a beetle
carrying a copy of the moving beetle itself — not the queen that occupied
the destination, which is overwritten and lost.  No successor at all has
the queen as the carried piece. -/
theorem c4_beetle_carries_itself :
    Board.get stateS4.board ⟨0, 0, 1⟩ = some (Piece.Queen .P2) ∧
    (((State.get_moves stateS4).getD []).any fun t =>
      Board.get t.board ⟨0, 0, 1⟩ ==
        some (Piece.Beetle .P1 (some (Piece.Beetle .P1 none)))) = true ∧
    (((State.get_moves stateS4).getD []).all fun t =>
      !(Board.get t.board ⟨0, 0, 1⟩ ==
        some (Piece.Beetle .P1 (some (Piece.Queen .P2))))) = true := by decide

/-- C1 (refuted): with four occupied cells, `placeable_points` of `stateS1`
is `[(0,0,0)]` — an OCCUPIED cell (player 1's own queen stands there), not
an empty cell — and `get_moves` produces a placement candidate in which a
newly placed beetle sits at that cell while the total number of occupied
cells is unchanged: the new piece was inserted on top of (and replaced)
the queen.  No movement arm can put a `Beetle P1` on the board (none is
placed), so the exhibited successor is a placement candidate. -/
theorem c1_placement_targets_occupied_cell :
    State.placeable_points stateS1 = [⟨0, 0, 0⟩] ∧
    Board.get stateS1.board ⟨0, 0, 0⟩ = some (Piece.Queen .P1) ∧
    2 ≤ stateS1.board.length ∧
    (((State.get_moves stateS1).getD []).any fun t =>
      Board.get t.board ⟨0, 0, 0⟩ == some (Piece.Beetle .P1 none) &&
        t.board.length == stateS1.board.length) = true := by decide

/-- C6 (refuted): in `stateS6` the active player's grasshopper at the
origin has the empty immediate neighbor `(0,1,0)` (its `+y` direction),
and `get_moves` nevertheless contains a candidate that moves the
grasshopper exactly there: the ray walk starts at the occupied origin, so
one iteration suffices and the degenerate zero-hop jump is emitted. -/
theorem c6_grasshopper_zero_hop_jump :
    ((⟨0, 1, 0⟩ : Point) ∈ Point.neighbors ⟨0, 0, 0⟩) ∧
    Board.get stateS6.board ⟨0, 1, 0⟩ = none ∧
    Board.get stateS6.board ⟨0, 0, 0⟩ = some (Piece.Grasshopper .P1) ∧
    (((State.get_moves stateS6).getD []).any fun t =>
      Board.get t.board ⟨0, 1, 0⟩ == some (Piece.Grasshopper .P1) &&
        (Board.get t.board ⟨0, 0, 0⟩).isNone) = true := by decide

/-! Claim C5: the spec-side notion of exactly three gated slides. -/

/-- Modelled from the spec (for comparison with the code): the
hypothetical board used by the ant/spider rule — the moving piece lifted
from its origin and placed at the current search cell. -/
def liftPlace (board : Board) (point cur : Point) : Board :=
  let r := Board.removeKey board point
  match r.1 with
  | some pc => Board.insert r.2 cur pc
  | none => board

/-- Modelled from the spec: the single gated slides available from `cur`
for a piece that started at `point` — `movable_neighbors` on the
hypothetical board, restricted to cells with perimeter contact in the
original board and not previously visited on this walk. -/
def specSlides (board : Board) (point cur : Point) (seen : List Point) : List Point :=
  (Point.movable_neighbors cur (liftPlace board point cur)).filter fun c =>
    (c.neighbors.any fun p => (Board.get board p).isSome) && !(seen.contains c)

/-- Modelled from the spec: every cell reachable from `point` by exactly
three gated slides with perimeter contact at each step (walks do not
revisit a cell, as in the game's spider rule and the search the spec
describes). -/
def specSpiderDests (board : Board) (point : Point) : List Point :=
  (specSlides board point point [point]).flatMap fun c1 =>
    (specSlides board point c1 [point, c1]).flatMap fun c2 =>
      specSlides board point c2 [point, c1, c2]

/-- C5 (refuted): in `stateS5`, `get_moves` contains a spider-move
candidate whose destination `(0,0,1)` is one single gated slide from the
spider's origin (first conjunct), yet is NOT reachable by any combination
of exactly three gated slides with perimeter contact (last conjunct): the
code chains the one-slide board into its results at every depth instead
of accepting boards only at depth exactly 3. -/
theorem c5_spider_one_slide_candidate :
    ((⟨0, 0, 1⟩ : Point) ∈ specSlides stateS5.board ⟨0, 0, 0⟩ ⟨0, 0, 0⟩ [⟨0, 0, 0⟩]) ∧
    Board.get stateS5.board ⟨0, 0, 0⟩ = some (Piece.Spider .P1) ∧
    (((State.get_moves stateS5).getD []).any fun t =>
      (Board.get t.board ⟨0, 0, 0⟩).isNone &&
        Board.get t.board ⟨0, 0, 1⟩ == some (Piece.Spider .P1)) = true ∧
    (⟨0, 0, 1⟩ : Point) ∉ specSpiderDests stateS5.board ⟨0, 0, 0⟩ := by decide

/-- C9 (confirmed): from the default initial state `get_moves` returns
exactly 5 pairwise-distinct successor states, each with a single piece at
the fixed origin; and from each of those, `get_moves` again returns
exactly 5 pairwise-distinct states, each with two occupied cells of which
one is the fixed neighbor `(0,0,1)` of the origin. -/
theorem c9_initial_move_scenarios :
    ((State.get_moves stateDefault).map fun l =>
      (l.length,
       decide (l.Pairwise fun a b => ¬a = b) &&
         l.all fun s =>
           s.board.length == 1 && Board.containsKey s.board (Point.new 0 0 0) &&
             match State.get_moves s with
             | some m =>
                 m.length == 5 && decide (m.Pairwise fun a b => ¬a = b) &&
                   m.all fun t =>
                     t.board.length == 2 && Board.containsKey t.board (Point.new 0 0 1)
             | none => false)) = some (5, true) := by decide

end Hive
